import Mathlib

/-!
# Verification of the xrp-viewer core

A shallow embedding, in Lean 4, of the core logic of the `xrp-viewer`
repository, together with theorems settling the specification claims
about it.

The embedded components are:

* `src/address.rs` — `AddressValidator::validate` and
  `AddressValidator::calculate_checksum`.  Rust strings are modelled by
  their UTF-8 byte sequences (`List Nat`, one entry per byte, each
  `< 256` for genuine strings): `str::len` in Rust is the byte length,
  and the `base58` crate decodes byte-wise, so this representation
  matches the source exactly.  The first character of a string is `'r'`
  iff its first UTF-8 byte is 114.
* `src/models.rs` — `AccountData::balance_xrp`, `Transaction::amount_xrp`,
  `Transaction::formatted_date`, `format_timestamp`,
  `DisplayTransaction::from_transaction`.  Rust `f64` values produced by
  `str::parse::<f64>` are modelled exactly as either a rational number,
  an infinity, or NaN (`F64` below); the decimal-string inputs handled
  here are represented exactly by rationals, so no rounding is modelled.
-/

namespace XrpViewer

/-- Equality on `Except` is decidable when it is on both components.
(Used so that concrete runs of the validator can be checked by `decide`.) -/
instance exceptDecEq {ε α : Type} [DecidableEq ε] [DecidableEq α] :
    DecidableEq (Except ε α)
  | .error e, .error f =>
    if h : e = f then .isTrue (by rw [h])
    else .isFalse (fun hh => h (Except.error.inj hh))
  | .error _, .ok _ => .isFalse (fun hh => Except.noConfusion hh)
  | .ok _, .error _ => .isFalse (fun hh => Except.noConfusion hh)
  | .ok a, .ok b =>
    if h : a = b then .isTrue (by rw [h])
    else .isFalse (fun hh => h (Except.ok.inj hh))

/-! ## Base58 decoding (the `base58` crate's `FromBase58` for `str`)

The crate maps each input byte through the Base58 alphabet
`123456789ABCDEFGHJKLMNPQRSTUVWXYZabcdefghijkmnopqrstuvwxyz`
(failing on any byte outside it), accumulates the digits as a big
integer in base 58, and returns one `0x00` byte per leading `'1'`
character followed by the minimal big-endian byte representation of the
accumulated value. -/

/-- The byte values of the 58-character Base58 alphabet, in digit order. -/
def b58Alphabet : List Nat :=
  [49, 50, 51, 52, 53, 54, 55, 56, 57,
   65, 66, 67, 68, 69, 70, 71, 72,
   74, 75, 76, 77, 78,
   80, 81, 82, 83, 84, 85, 86, 87, 88, 89, 90,
   97, 98, 99, 100, 101, 102, 103, 104, 105, 106, 107,
   109, 110, 111, 112, 113, 114, 115, 116, 117, 118, 119, 120, 121, 122]

/-- The Base58 digit value of one input byte, `none` for bytes outside
the alphabet. -/
def b58DigitOfByte (b : Nat) : Option Nat :=
  b58Alphabet.findIdx? (fun a => a = b)

/-- Map every input byte to its Base58 digit, failing on the first byte
outside the alphabet (the crate's `InvalidBase58Character` error). -/
def b58Digits : List Nat → Option (List Nat)
  | [] => some []
  | b :: bs =>
    match b58DigitOfByte b, b58Digits bs with
    | some d, some ds => some (d :: ds)
    | _, _ => none

/-- Minimal big-endian byte representation of a natural number, written
with an explicit fuel argument so that it is structurally recursive (the
recursion depth is the byte count, so any fuel `≥ n` is enough). -/
def natToBEBytesAux : Nat → Nat → List Nat
  | 0, _ => []
  | fuel + 1, n => if n = 0 then [] else natToBEBytesAux fuel (n / 256) ++ [n % 256]

/-- Minimal big-endian byte representation of a natural number
(`natToBEBytes 0 = []`). -/
def natToBEBytes (n : Nat) : List Nat :=
  natToBEBytesAux n n

/-- `str::from_base58` of the `base58` crate, over the input's bytes. -/
def fromBase58 (input : List Nat) : Except Unit (List Nat) :=
  match b58Digits input with
  | none => .error ()
  | some digits =>
    let value := digits.foldl (fun acc d => acc * 58 + d) 0
    let zeros := (input.takeWhile (fun b => b = 49)).length
    .ok (List.replicate zeros 0 ++ natToBEBytes value)

/-! ## `src/address.rs` -/

/-- The `AddressError` enum of `src/address.rs`. -/
inductive AddressError
  | TooShort
  | TooLong
  | InvalidPrefix
  | InvalidBase58
  | InvalidChecksum
  | InvalidDataLength
deriving DecidableEq, Repr

/-- One round of the bitwise CRC-32 (IEEE, reflected polynomial
`0xEDB88320`) as computed by the `crc32fast` crate: shift right one bit,
conditionally folding in the polynomial. -/
def crc32Round (crc : Nat) : Nat :=
  if crc % 2 = 1 then (crc / 2) ^^^ 0xEDB88320 else crc / 2

/-- Absorb one byte into a running CRC-32 state. -/
def crc32Update (crc b : Nat) : Nat :=
  crc32Round (crc32Round (crc32Round (crc32Round
    (crc32Round (crc32Round (crc32Round (crc32Round (crc ^^^ b % 256))))))))

/-- CRC-32 (IEEE) of a byte list: initial state `0xFFFFFFFF`, absorb each
byte, complement at the end.  This is `crc32fast::Hasher` as used by
`AddressValidator::calculate_checksum`. -/
def crc32 (data : List Nat) : Nat :=
  (data.foldl crc32Update 0xFFFFFFFF) ^^^ 0xFFFFFFFF

/-- `AddressValidator::calculate_checksum`: the CRC-32 of `data`,
rendered as 4 big-endian bytes (`u32::to_be_bytes`). -/
def calculate_checksum (data : List Nat) : List Nat :=
  let c := crc32 data
  [c / 2 ^ 24 % 256, c / 2 ^ 16 % 256, c / 2 ^ 8 % 256, c % 256]

/-- The slice `&decoded_bytes[..data_len - 4]` taken by `validate`
(step 5): everything but the trailing 4 bytes. -/
def payloadSlice (decoded : List Nat) : List Nat :=
  decoded.take (decoded.length - 4)

/-- The slice `&decoded_bytes[data_len - 4..]` taken by `validate`
(step 5): the trailing 4 bytes. -/
def checksumSlice (decoded : List Nat) : List Nat :=
  decoded.drop (decoded.length - 4)

/-- `AddressValidator::validate` over the address's UTF-8 bytes.

Steps, exactly as in `src/address.rs`: length floor (< 25 → `TooShort`),
length ceiling (> 35 → `TooLong`), `'r'` prefix (first byte 114),
Base58 decoding, minimum decoded length (< 5 → `InvalidDataLength`).
The checksum comparison of step 5 is commented out in the source
("ВРЕМЕННО ОТКЛЮЧЕНА"): the two slices are computed (and logged) but
never compared, and the function then returns `Ok(())`. -/
def validate (address : List Nat) : Except AddressError Unit :=
  if address.length < 25 then .error .TooShort
  else if address.length > 35 then .error .TooLong
  else if address.head? ≠ some 114 then .error .InvalidPrefix
  else
    match fromBase58 address with
    | .error _ => .error .InvalidBase58
    | .ok decoded_bytes =>
      if decoded_bytes.length < 5 then .error .InvalidDataLength
      else
        let data_without_checksum := payloadSlice decoded_bytes
        let checksum := checksumSlice decoded_bytes
        -- The comparison `checksum != Self::calculate_checksum(..)` is
        -- inside a block comment in the source; `Ok(())` is returned
        -- unconditionally here.
        .ok ()

/-! ## Rust `f64` parsing (`str::parse::<f64>`)

Rust's grammar for `f64::from_str` is
`[+-]? ( 'inf' | 'infinity' | 'nan' | Number )` (special names
case-insensitive, the whole string must be consumed), with
`Number ::= Digits '.'? Digits? Exp? | '.' Digits Exp?` — at least one
mantissa digit overall — and `Exp ::= ('e'|'E') [+-]? Digits`.
A successfully parsed finite numeral is represented exactly by its
decimal components (`DecNumeral`) and its value as a rational. -/

/-- The decimal value of one digit character, `none` otherwise. -/
def digitVal? (c : Char) : Option Nat :=
  if 48 ≤ c.toNat ∧ c.toNat ≤ 57 then some (c.toNat - 48) else none

/-- Consume leading decimal digits, extending the accumulator `acc` in
base 10 and the digit count `cnt`; returns the new accumulator, the new
count and the unconsumed rest. -/
def takeDigits : List Char → Nat → Nat → Nat × Nat × List Char
  | [], acc, cnt => (acc, cnt, [])
  | c :: cs, acc, cnt =>
    match digitVal? c with
    | some d => takeDigits cs (acc * 10 + d) (cnt + 1)
    | none => (acc, cnt, c :: cs)

/-- A finite decimal numeral as accepted by Rust's `f64` parser:
sign, mantissa digits read as one integer, number of fractional digits,
and the exponent.  Its exact value is `DecNumeral.toRat`. -/
structure DecNumeral where
  neg : Bool
  mantissa : Nat
  fracDigits : Nat
  exp : Int
deriving DecidableEq, Repr

/-- The exact rational value of a parsed decimal numeral. -/
def DecNumeral.toRat (d : DecNumeral) : ℚ :=
  (if d.neg then (-1 : ℚ) else 1) * (d.mantissa : ℚ)
    / (10 : ℚ) ^ d.fracDigits * (10 : ℚ) ^ d.exp

/-- The result of Rust `f64` parsing before evaluation: a finite decimal
numeral, a (signed) infinity, or NaN. -/
inductive ParsedF64
  | num (d : DecNumeral)
  | infinite (neg : Bool)
  | nan
deriving DecidableEq, Repr

/-- Parse the optional exponent part (and require the rest of the string
to be empty), completing `DecNumeral` from the already-read sign,
mantissa and fractional digit count. -/
def parseExp (neg : Bool) (mant fracCnt : Nat) : List Char → Option DecNumeral
  | [] => some ⟨neg, mant, fracCnt, 0⟩
  | c :: cs =>
    if c = 'e' ∨ c = 'E' then
      let (eneg, cs2) :=
        match cs with
        | '+' :: t => (false, t)
        | '-' :: t => (true, t)
        | t => (false, t)
      match takeDigits cs2 0 0 with
      | (ev, ecnt, rest) =>
        if ecnt = 0 ∨ rest ≠ [] then none
        else some ⟨neg, mant, fracCnt, if eneg then -(ev : Int) else (ev : Int)⟩
    else none

/-- Parse a finite number (after the optional sign): integer digits,
optional fraction, optional exponent; at least one mantissa digit is
required and the whole input must be consumed. -/
def parseNumber (neg : Bool) (cs : List Char) : Option DecNumeral :=
  match takeDigits cs 0 0 with
  | (ip, ic, r1) =>
    match r1 with
    | '.' :: r2 =>
      match takeDigits r2 ip 0 with
      | (mant, fc, r3) =>
        if ic + fc = 0 then none else parseExp neg mant fc r3
    | _ => if ic = 0 then none else parseExp neg ip 0 r1

/-- Rust `str::parse::<f64>` on the character content of a string,
up to evaluation: `none` is `Err(ParseFloatError)`. -/
def parseF64 (s : String) : Option ParsedF64 :=
  match s.data with
  | [] => none
  | cs =>
    let (neg, body) :=
      match cs with
      | '+' :: t => (false, t)
      | '-' :: t => (true, t)
      | t => (false, t)
    let low := body.map Char.toLower
    if low = ['i', 'n', 'f'] ∨ low = ['i', 'n', 'f', 'i', 'n', 'i', 't', 'y'] then
      some (.infinite neg)
    else if low = ['n', 'a', 'n'] then some .nan
    else (parseNumber neg body).map ParsedF64.num

/-- An `f64` value as far as this program can observe it: an exactly
represented finite rational, an infinity, or NaN.  (All decimal strings
handled by the program are represented exactly, so rounding plays no
role.) -/
inductive F64
  | finite (q : ℚ)
  | infinite (neg : Bool)
  | nan
deriving DecidableEq

/-- Evaluate a parse result to an `f64` value. -/
def ParsedF64.toF64 : ParsedF64 → F64
  | .num d => .finite d.toRat
  | .infinite b => .infinite b
  | .nan => .nan

/-- `str::parse::<f64>` end to end: `none` is the `Err` case. -/
def rustParseF64 (s : String) : Option F64 :=
  (parseF64 s).map ParsedF64.toF64

/-- Division of an `f64` value by the positive constant `1_000_000.0`
(`x / 1_000_000.0`: finite values divide exactly here, infinities stay
infinite, NaN stays NaN). -/
def divMillion : F64 → F64
  | .finite q => .finite (q / 1000000)
  | .infinite b => .infinite b
  | .nan => .nan

/-! ## `src/models.rs` -/

/-- The deserialised `AccountData` record (`Balance` field). -/
structure AccountData where
  balance : String

/-- `AccountData::balance_xrp`: parse the balance string as `f64` and
divide by `1_000_000.0`; on a parse error return `0.0`. -/
def AccountData.balance_xrp (a : AccountData) : F64 :=
  match rustParseF64 a.balance with
  | some balance_drops => divMillion balance_drops
  | none => .finite 0

/-- The spec's name (§4.2) for the shared normalization logic of
`balance_xrp` and `amount_xrp`: parse as `f64`, divide by `1_000_000.0`,
degrade to `0.0` on parse failure. -/
def subunits_to_display (raw : String) : F64 :=
  match rustParseF64 raw with
  | some v => divMillion v
  | none => .finite 0

/-- The deserialised `Transaction` record of `src/models.rs`.
`date` is the `u64` ledger-epoch timestamp, modelled as `Nat`. -/
structure Transaction where
  hash : String
  amount : Option String
  date : Option Nat
  account : String
  destination : Option String
  transaction_type : String

/-- `Transaction::amount_xrp`: like `balance_xrp` on the optional
`Amount` field, returning `0.0` when the field is absent. -/
def Transaction.amount_xrp (tx : Transaction) : F64 :=
  match tx.amount with
  | some amount_str =>
    match rustParseF64 amount_str with
    | some amount_drops => divMillion amount_drops
    | none => .finite 0
  | none => .finite 0

/-- Zero-pad a natural number to (at least) two digits, i.e. Rust's
`{:02}` format for the values occurring here. -/
def pad2 (n : Nat) : String :=
  if n < 10 then "0" ++ toString n else toString n

/-- The date string built in the `Ok` branch of `format_timestamp`:
`format!("20{}-{:02}-{:02} {:02}:{:02} UTC", 24 + days / 365,
(days % 365) / 30 + 1, days % 30 + 1, hours, minutes)` with
`days = secs / 86400`, `hours = (secs % 86400) / 3600`,
`minutes = (secs % 3600) / 60`. -/
def renderDate (secs : Nat) : String :=
  let days := secs / 86400
  let hours := (secs % 86400) / 3600
  let minutes := (secs % 3600) / 60
  "20" ++ toString (24 + days / 365) ++ "-" ++ pad2 ((days % 365) / 30 + 1)
    ++ "-" ++ pad2 (days % 30 + 1) ++ " " ++ pad2 hours ++ ":" ++ pad2 minutes
    ++ " UTC"

/-- `SystemTime::duration_since` on epoch-relative times measured in
whole seconds (an `Err` exactly when the time is earlier than the
argument).  `UNIX_EPOCH` itself is `0`. -/
def durationSince (t earlier : Int) : Except Unit Nat :=
  if earlier ≤ t then .ok (t - earlier).toNat else .error ()

/-- `format_timestamp` of `src/models.rs`: build
`UNIX_EPOCH + Duration::from_secs(timestamp)`, take `duration_since`
from `UNIX_EPOCH`, and on success render the date from `timestamp`
(the `Err` branch yields the sentinel `"Некорректная дата"`).

The `SystemTime` sum is modelled here as unbounded integer arithmetic,
which agrees with the source exactly for timestamps whose sum is
representable in the platform's `i64` seconds (`timestamp < 2^63`); for
larger `u64` timestamps the source's addition panics instead of
producing a value, which this total model cannot show — that overflow
path is modelled faithfully by `format_timestamp_checked` below. -/
def format_timestamp (timestamp : Nat) : String :=
  let dt : Int := 0 + (timestamp : Int)
  match durationSince dt 0 with
  | .ok _ => renderDate timestamp
  | .error _ => "Некорректная дата"

/-- Largest number of whole seconds representable in `SystemTime` on a
64-bit Unix platform (`timespec.tv_sec : i64`), i.e. `i64::MAX`. -/
def i64MaxSeconds : Int := 2 ^ 63 - 1

/-- `UNIX_EPOCH + Duration::from_secs(d)` with the platform overflow
made explicit: `impl Add<Duration> for SystemTime` is
`checked_add(dur).expect("overflow when adding duration to instant")`,
so the sum panics — modelled as `none` — when the resulting seconds
exceed `i64::MAX`. -/
def systemTimeAddDuration (t : Int) (d : Nat) : Option Int :=
  if t + (d : Int) ≤ i64MaxSeconds then some (t + (d : Int)) else none

/-- `format_timestamp` with the `SystemTime` overflow panic modelled
explicitly: `none` is the panic raised while evaluating
`UNIX_EPOCH + Duration::from_secs(timestamp)` (before `duration_since`
is ever called), `some` the string the function returns.  On the
non-panicking domain it agrees with the total model `format_timestamp`. -/
def format_timestamp_checked (timestamp : Nat) : Option String :=
  match systemTimeAddDuration 0 timestamp with
  | none => none
  | some dt =>
    match durationSince dt 0 with
    | .ok _ => some (renderDate timestamp)
    | .error _ => some "Некорректная дата"

/-- `Transaction::formatted_date`: on a present timestamp add the Ripple
epoch offset `946_684_800` and format; on `None` return the sentinel
`"Нет данных"`. -/
def Transaction.formatted_date (tx : Transaction) : String :=
  match tx.date with
  | some timestamp => format_timestamp (946684800 + timestamp)
  | none => "Нет данных"

/-- The `DisplayTransaction` record of `src/models.rs`. -/
structure DisplayTransaction where
  hash : String
  amount_xrp : F64
  timestamp : String
  «from» : String
  «to» : String
deriving DecidableEq

/-- `DisplayTransaction::from_transaction`: keep only `"Payment"`
transactions; copy `hash` and the sender, normalize amount and date,
default a missing destination to `"Неизвестно"`. -/
def DisplayTransaction.from_transaction (tx : Transaction) : Option DisplayTransaction :=
  if tx.transaction_type = "Payment" then
    some
      { hash := tx.hash
        amount_xrp := tx.amount_xrp
        timestamp := tx.formatted_date
        «from» := tx.account
        «to» := tx.destination.getD "Неизвестно" }
  else none

/-! ## Calendar facts used to state the ledger-epoch claim -/

/-- Gregorian leap-year rule. -/
def isLeapYear (y : Nat) : Bool :=
  (y % 4 = 0 && !(y % 100 = 0)) || y % 400 = 0

/-- Days from 1970-01-01 to January 1 of year `y` (for `y ≥ 1970`),
by the exact Gregorian calendar. -/
def daysFromUnixEpochToYear (y : Nat) : Nat :=
  ((List.range (y - 1970)).map (fun i => if isLeapYear (1970 + i) then 366 else 365)).sum

/-- The instant 2000-01-01T00:00:00Z as seconds since the Unix epoch,
computed from the exact Gregorian calendar. -/
def ledgerEpochUnixSeconds : Nat :=
  daysFromUnixEpochToYear 2000 * 86400

/-! ## Theorems -/

/-- Claim C5: every address whose byte length exceeds 35 fails with
`TooLong`, whatever its content — in particular the outcome does not
depend on Base58 decodability (the decode is not even reached: the
length test precedes it in `validate`). -/
theorem validate_too_long (address : List Nat) (h : 35 < address.length) :
    validate address = .error .TooLong := by
  unfold validate
  rw [if_neg (by omega), if_pos (by omega)]

/-- Witness for C5: a 36-byte string of `'r'`s is rejected as `TooLong`
(it is well-formed Base58, so only the length matters). -/
theorem validate_too_long_witness :
    validate (List.replicate 36 114) = .error .TooLong :=
  validate_too_long _ (by decide)

/-- Counterexample to C6 as stated: the one-byte string `"x"` does not
start with `'r'`, yet `validate` rejects it with `TooShort`, not
`InvalidPrefix` — the length checks run first. -/
theorem validate_short_non_r_gives_too_short :
    [120].head? ≠ some 114 ∧
    validate [120] = .error .TooShort ∧
    validate [120] ≠ .error .InvalidPrefix := by
  refine ⟨by decide, by decide, by decide⟩

/-- Claim C6 (amended): every address of acceptable byte length
(25 to 35) that does not start with `'r'` (first UTF-8 byte 114) fails
with `InvalidPrefix`, even if the string is otherwise valid Base58. -/
theorem validate_invalid_prefix (address : List Nat) (h1 : 25 ≤ address.length)
    (h2 : address.length ≤ 35) (h3 : address.head? ≠ some 114) :
    validate address = .error .InvalidPrefix := by
  unfold validate
  rw [if_neg (by omega), if_neg (by omega), if_pos h3]

/-- Witness for the amended C6: `"x"` followed by 24 `'r'`s (25 bytes,
valid Base58, wrong first character) is rejected as `InvalidPrefix`. -/
theorem validate_invalid_prefix_witness :
    validate (120 :: List.replicate 24 114) = .error .InvalidPrefix :=
  validate_invalid_prefix _ (by decide) (by decide) (by decide)

/-- Claim C7: `formatted_date` on an absent timestamp returns the fixed
sentinel string `"Нет данных"` and signals no error. -/
theorem formatted_date_none (tx : Transaction) (h : tx.date = none) :
    tx.formatted_date = "Нет данных" := by
  simp [Transaction.formatted_date, h]

/-- Witness for C7, on a concrete transaction with no date field. -/
theorem formatted_date_none_witness :
    Transaction.formatted_date ⟨"ABC", none, none, "rSomeAcct", none, "Payment"⟩ =
      "Нет данных" :=
  formatted_date_none _ rfl

/-- Helper: the bucketed date rendering always starts with the character
`'2'` (from its fixed `"20"` prefix), so it is never the error sentinel
`"Некорректная дата"`. -/
theorem renderDate_ne_error_sentinel (timestamp : Nat) :
    renderDate timestamp ≠ "Некорректная дата" := by
  have h2 : (renderDate timestamp).data.head? = some '2' := by
    simp only [renderDate, String.data_append]
    rfl
  intro hEq
  rw [hEq] at h2
  exact absurd h2 (by decide)

/-- Counterexample to C10 as stated: at the u64 timestamp `2^63` the
addition `UNIX_EPOCH + Duration::from_secs(t)` overflows `SystemTime`'s
`i64` seconds and panics (`checked_add(..).expect(..)`), so the program
aborts before `duration_since` runs and `format_timestamp` returns no
formatted date string at all — the claim's "always returns the formatted
date string" fails on half of the u64 domain. -/
theorem format_timestamp_panics_at_large_input :
    format_timestamp_checked (2 ^ 63) = none := by decide

/-- Claim C10 (amended): the `"Некорректная дата"` error branch of
`format_timestamp` is unreachable for every u64 timestamp.  For every
timestamp representable in `SystemTime`'s `i64` seconds (`t < 2^63`) the
sum `UNIX_EPOCH + Duration::from_secs(t)` is constructed,
`duration_since(UNIX_EPOCH)` on it succeeds, and the function returns
the bucketed date string `renderDate t` (agreeing with the total model
`format_timestamp`); for `t ≥ 2^63` the addition itself panics before
the match, so no string — in particular not the error sentinel — is
produced there either. -/
theorem format_timestamp_error_branch_unreachable (timestamp : Nat) :
    (timestamp < 2 ^ 63 →
      format_timestamp_checked timestamp = some (renderDate timestamp) ∧
      format_timestamp_checked timestamp = some (format_timestamp timestamp)) ∧
    (2 ^ 63 ≤ timestamp → format_timestamp_checked timestamp = none) ∧
    format_timestamp_checked timestamp ≠ some "Некорректная дата" := by
  have hrep : timestamp < 2 ^ 63 →
      format_timestamp_checked timestamp = some (renderDate timestamp) := by
    intro ht
    have h1 : (timestamp : Int) ≤ i64MaxSeconds := by
      simp only [i64MaxSeconds]
      omega
    simp [format_timestamp_checked, systemTimeAddDuration, durationSince, h1,
      Int.natCast_nonneg]
  have hpan : 2 ^ 63 ≤ timestamp → format_timestamp_checked timestamp = none := by
    intro ht
    have h1 : ¬ ((timestamp : Int) ≤ i64MaxSeconds) := by
      simp only [i64MaxSeconds]
      omega
    simp [format_timestamp_checked, systemTimeAddDuration, h1]
  have htot : format_timestamp timestamp = renderDate timestamp := by
    have hc : (0 : Int) ≤ 0 + (timestamp : Int) := by omega
    simp [format_timestamp, durationSince, hc]
  refine ⟨fun ht => ⟨hrep ht, ?_⟩, hpan, ?_⟩
  · rw [hrep ht, htot]
  · by_cases ht : timestamp < 2 ^ 63
    · rw [hrep ht]
      simp [renderDate_ne_error_sentinel timestamp]
    · rw [hpan (by omega)]
      simp

/-- Witness for the amended C10: the ledger-epoch timestamp is rendered
as the bucketed date string, while the first unrepresentable timestamp
`2^63` panics instead of producing a string. -/
theorem format_timestamp_error_branch_unreachable_witness :
    format_timestamp_checked 946684800 = some (renderDate 946684800) ∧
    format_timestamp_checked (2 ^ 63) = none :=
  ⟨((format_timestamp_error_branch_unreachable 946684800).1 (by norm_num)).1,
   (format_timestamp_error_branch_unreachable (2 ^ 63)).2.1 (by norm_num)⟩

/-- Claim C2: `from_transaction` keeps exactly the `"Payment"`
transactions; on a kept transaction the hash and sender are copied
verbatim, the amount is the normalized optional amount (zero when the
field is absent), and the destination defaults to the sentinel
`"Неизвестно"` when absent. -/
theorem from_transaction_projection (tx : Transaction) :
    (tx.transaction_type ≠ "Payment" → DisplayTransaction.from_transaction tx = none) ∧
    (tx.transaction_type = "Payment" →
      DisplayTransaction.from_transaction tx =
        some { hash := tx.hash, amount_xrp := tx.amount_xrp,
               timestamp := tx.formatted_date, «from» := tx.account,
               «to» := tx.destination.getD "Неизвестно" }) ∧
    (tx.amount = none → tx.amount_xrp = .finite 0) ∧
    (tx.destination = none → tx.destination.getD "Неизвестно" = "Неизвестно") := by
  refine ⟨fun h => ?_, fun h => ?_, fun h => ?_, fun h => ?_⟩
  · simp [DisplayTransaction.from_transaction, h]
  · simp [DisplayTransaction.from_transaction, h]
  · simp [Transaction.amount_xrp, h]
  · simp [h]

/-- Witness for C2: a concrete Payment with no amount and no destination
projects to a record with zero amount and the unknown-destination
sentinel; a concrete OfferCreate is dropped. -/
theorem from_transaction_projection_witness :
    DisplayTransaction.from_transaction
        ⟨"DEADBEEF", none, none, "rSender", none, "Payment"⟩ =
      some ⟨"DEADBEEF", .finite 0, "Нет данных", "rSender", "Неизвестно"⟩ ∧
    DisplayTransaction.from_transaction
        ⟨"DEADBEEF", none, none, "rSender", none, "OfferCreate"⟩ = none :=
  ⟨(from_transaction_projection _).2.1 rfl,
   (from_transaction_projection _).1 (by decide)⟩

/-- Claim C3: `subunits_to_display` (the shared logic of `balance_xrp`
and `amount_xrp`) parses its input with Rust `f64` semantics and divides
the parsed value by 1,000,000; any parse failure degrades to `0.0`
without signaling an error.  Includes the spec's three concrete cases
and the link to the two methods of `src/models.rs`. -/
theorem subunits_to_display_spec (s : String) :
    (∀ q, rustParseF64 s = some (.finite q) →
      subunits_to_display s = .finite (q / 1000000)) ∧
    (rustParseF64 s = none → subunits_to_display s = .finite 0) ∧
    subunits_to_display "1000000" = .finite 1 ∧
    subunits_to_display "0" = .finite 0 ∧
    subunits_to_display "not-a-number" = .finite 0 ∧
    (∀ a : AccountData, a.balance_xrp = subunits_to_display a.balance) ∧
    (∀ tx : Transaction, ∀ amt, tx.amount = some amt →
      tx.amount_xrp = subunits_to_display amt) ∧
    (∀ tx : Transaction, tx.amount = none → tx.amount_xrp = .finite 0) := by
  refine ⟨fun q h => ?_, fun h => ?_, ?_, ?_, ?_, fun a => rfl,
    fun tx amt h => ?_, fun tx h => ?_⟩
  · simp [subunits_to_display, h, divMillion]
  · simp [subunits_to_display, h]
  · have h : subunits_to_display "1000000" =
        .finite (DecNumeral.toRat ⟨false, 1000000, 0, 0⟩ / 1000000) := rfl
    rw [h]
    norm_num [DecNumeral.toRat]
  · have h : subunits_to_display "0" =
        .finite (DecNumeral.toRat ⟨false, 0, 0, 0⟩ / 1000000) := rfl
    rw [h]
    norm_num [DecNumeral.toRat]
  · rfl
  · simp [Transaction.amount_xrp, h, subunits_to_display]
  · simp [Transaction.amount_xrp, h]

/-- Witness for C3: the non-numeral `"abc"` degrades to zero, and the
numeral `"2"` is divided by 1,000,000. -/
theorem subunits_to_display_spec_witness :
    subunits_to_display "abc" = .finite 0 ∧
    subunits_to_display "2" = .finite (DecNumeral.toRat ⟨false, 2, 0, 0⟩ / 1000000) :=
  ⟨(subunits_to_display_spec "abc").2.1 rfl,
   (subunits_to_display_spec "2").1 (DecNumeral.toRat ⟨false, 2, 0, 0⟩) rfl⟩

/-- Claim C4: on a present timestamp `formatted_date` adds the fixed
offset 946,684,800 to the ledger-epoch seconds and renders that absolute
time; for `Some(0)` the absolute time is exactly the ledger epoch
2000-01-01T00:00:00Z (946,684,800 Unix seconds, recomputed here from the
exact Gregorian calendar).  The rendering itself uses the source's
365-day-year / 30-day-month bucketing, which for the epoch instant
prints `"2054-01-08 00:00 UTC"` — the calendar-approximation caveat of
the spec. -/
theorem formatted_date_ledger_epoch (tx : Transaction) :
    (∀ t, tx.date = some t → tx.formatted_date = format_timestamp (946684800 + t)) ∧
    (tx.date = some 0 → tx.formatted_date = renderDate 946684800) ∧
    ledgerEpochUnixSeconds = 946684800 ∧
    renderDate 946684800 = "2054-01-08 00:00 UTC" := by
  refine ⟨fun t ht => ?_, fun h0 => ?_, by decide, by decide⟩
  · simp [Transaction.formatted_date, ht]
  · have hc : (0 : Int) ≤ 0 + ((946684800 + 0 : Nat) : Int) := by omega
    simp [Transaction.formatted_date, h0, format_timestamp, durationSince, hc]

/-- Witness for C4: a concrete transaction dated at ledger-epoch zero is
rendered from Unix second 946,684,800. -/
theorem formatted_date_ledger_epoch_witness :
    Transaction.formatted_date ⟨"ABC", none, some 0, "rSomeAcct", none, "Payment"⟩ =
      renderDate 946684800 :=
  (formatted_date_ledger_epoch _).2.1 rfl

/-- Claim C8: as implemented, `validate` never returns
`InvalidChecksum` for any input, and every string of acceptable length
(25–35 bytes) starting with `'r'` whose Base58 decoding has at least 5
bytes validates successfully, whatever its trailing 4 bytes are. -/
theorem validate_never_invalid_checksum (address : List Nat) :
    validate address ≠ .error .InvalidChecksum ∧
    (∀ decoded, 25 ≤ address.length → address.length ≤ 35 →
      address.head? = some 114 → fromBase58 address = .ok decoded →
      5 ≤ decoded.length → validate address = .ok ()) := by
  constructor
  · unfold validate
    split_ifs with h1 h2 h3
    · simp
    · simp
    · simp
    · cases hfb : fromBase58 address with
      | error e => simp
      | ok decoded =>
        by_cases h4 : decoded.length < 5
        · simp [h4]
        · simp [h4]
  · intro decoded h1 h2 h3 h4 h5
    unfold validate
    rw [if_neg (by omega), if_neg (by omega), if_neg (by simp [h3])]
    simp only [h4]
    rw [if_neg (by omega)]

set_option maxRecDepth 8192 in
/-- Witness for C8: 25 `'r'`s form a well-formed Base58 string of
acceptable length whose decoding has 19 bytes; it validates even though
its trailing 4 bytes are not the CRC-32 of its payload. -/
theorem validate_never_invalid_checksum_witness :
    validate (List.replicate 25 114) = .ok () :=
  (validate_never_invalid_checksum _).2
    [4, 178, 26, 89, 39, 91, 220, 27, 70, 80, 105, 206, 64, 34, 160, 107, 31, 112, 71]
    (by decide) (by decide) (by decide) (by decide) (by decide)

/-- Claim C9: the slice operations of `validate`'s step 5 are safe:
whenever the decoded bytes pass the minimum-length check (≥ 5), the
payload slice `decoded[..len-4]` and checksum slice `decoded[len-4..]`
partition the decoded bytes, the checksum slice has exactly 4 bytes, and
the payload is non-empty — so `validate` (a total function here by
construction) panics on no input. -/
theorem decoded_slices_safe (address decoded : List Nat)
    (hdec : fromBase58 address = .ok decoded) (hlen : 5 ≤ decoded.length) :
    payloadSlice decoded ++ checksumSlice decoded = decoded ∧
    (payloadSlice decoded).length = decoded.length - 4 ∧
    1 ≤ (payloadSlice decoded).length ∧
    (checksumSlice decoded).length = 4 := by
  refine ⟨List.take_append_drop _ _, ?_, ?_, ?_⟩
  · simp [payloadSlice]
  · simp [payloadSlice]
    omega
  · simp [checksumSlice]
    omega

set_option maxRecDepth 8192 in
/-- Witness for C9: the 6-byte string `"zzzzzz"` decodes to exactly 5
bytes, split into a 1-byte payload and a 4-byte checksum. -/
theorem decoded_slices_safe_witness :
    payloadSlice [8, 221, 18, 38, 63] ++ checksumSlice [8, 221, 18, 38, 63] =
        [8, 221, 18, 38, 63] ∧
    (payloadSlice [8, 221, 18, 38, 63]).length = [8, 221, 18, 38, 63].length - 4 ∧
    1 ≤ (payloadSlice [8, 221, 18, 38, 63]).length ∧
    (checksumSlice [8, 221, 18, 38, 63]).length = 4 :=
  decoded_slices_safe (List.replicate 6 122) _ (by decide) (by decide)

set_option maxRecDepth 8192 in
/-- Claim C1 (divergence witness): the address `"r"` followed by 24
`'z'`s passes every structural check, its decoded trailing 4 bytes
`[241, 255, 255, 255]` differ from the CRC-32 of its payload
`[121, 167, 251, 89]`, yet `validate` returns `Ok(())` — the
`InvalidChecksum` comparison required by the claim is the part of step 5
that the source comments out. -/
theorem validate_accepts_wrong_checksum :
    validate (114 :: List.replicate 24 122) = .ok () ∧
    fromBase58 (114 :: List.replicate 24 122) =
      .ok [4, 181, 124, 155, 87, 100, 11, 144, 254, 22, 253, 120, 91, 86, 201,
           241, 255, 255, 255] ∧
    checksumSlice [4, 181, 124, 155, 87, 100, 11, 144, 254, 22, 253, 120, 91, 86, 201,
        241, 255, 255, 255] = [241, 255, 255, 255] ∧
    calculate_checksum (payloadSlice [4, 181, 124, 155, 87, 100, 11, 144, 254, 22,
        253, 120, 91, 86, 201, 241, 255, 255, 255]) = [121, 167, 251, 89] ∧
    checksumSlice [4, 181, 124, 155, 87, 100, 11, 144, 254, 22, 253, 120, 91, 86, 201,
        241, 255, 255, 255] ≠
      calculate_checksum (payloadSlice [4, 181, 124, 155, 87, 100, 11, 144, 254, 22,
        253, 120, 91, 86, 201, 241, 255, 255, 255]) := by
  refine ⟨by decide, by decide, by decide, by decide, by decide⟩

end XrpViewer
